import Mathlib

/-!
# Buffett-Portfolio-Analyzer: verification of the spec against the code

Shallow embedding of the repository's code.  The repository ships the React
frontend (`StockList`, `StockDetailView`, `AddStockForm`, `AnalyzeStocksButton`,
`services/api`); the Flask backend (Scoring Engine, Portfolio Store, Reanalysis
Orchestrator, Market Data Client) is not among the shipped sources, so those
components are modelled from the spec (each such definition's doc comment says
so).  Nullable JSON numbers are embedded as `Option ℚ`; JavaScript truthiness
on such a value (`x ? a : b`, `x || 0`) is embedded explicitly, so that the
distinction between "absent" and "numerically zero" is visible in the model.
-/

/-! ## Frontend data model (src/frontend: StockList.tsx `Stock` interface)

The TypeScript interface declares every metric as `number`, but the JSON the
backend serves may carry `null` for a never-computed field, and the rendering
code guards every access with truthiness (`?:`, `?.`, `||`).  We therefore
embed each metric as `Option ℚ`. -/

structure Stock where
  symbol : String
  current_price : Option ℚ
  pe_ratio : Option ℚ
  roe : Option ℚ
  total_score : Option ℚ
  analyst_ratings_buy : ℕ
  analyst_ratings_hold : ℕ
  analyst_ratings_sell : ℕ
  analyst_ratings_strong_buy : ℕ
  analyst_ratings_strong_sell : ℕ
  rsi : Option ℚ
  macd : Option ℚ
  volatility : Option ℚ
  sentiment_score : Option ℚ
  beta : Option ℚ
  deriving DecidableEq, Repr

/-- JavaScript truthiness of a nullable number: `null`/`undefined` and `0`
are falsy, every other number is truthy. -/
def jsTruthy : Option ℚ → Bool
  | none => false
  | some v => v ≠ 0

/-- Embeds `x || 0` on a nullable number: the value when truthy, otherwise `0`. -/
def jsOr0 (x : Option ℚ) : ℚ :=
  if jsTruthy x then x.getD 0 else 0

/-- What a table cell displays: either the literal string "N/A" or a number
(`toFixed` of that number). -/
inductive CellView where
  | na : CellView
  | val : ℚ → CellView
  deriving DecidableEq, Repr

/-- Embeds the `StockList.tsx` table body, e.g. line 461:
`stock.total_score ? stock.total_score.toFixed(2) : 'N/A'` — a truthiness
guard around a nullable number. -/
def renderTruthy (x : Option ℚ) : CellView :=
  match x with
  | none => CellView.na
  | some v => if v = 0 then CellView.na else CellView.val v

/-- The Total Score cell of the `StockList` table row (line 461). -/
def scoreCell (st : Stock) : CellView := renderTruthy st.total_score

/-- The Current Price cell of the `StockList` table row (line 452). -/
def priceCell (st : Stock) : CellView := renderTruthy st.current_price

/-- The P/E Ratio cell of the `StockList` table row (line 455). -/
def peCell (st : Stock) : CellView := renderTruthy st.pe_ratio

/-- The sort key used by `StockList.fetchStocks`:
`(b.total_score || 0) - (a.total_score || 0)`, i.e. descending by
`total_score || 0`. -/
def sortKey (st : Stock) : ℚ := jsOr0 st.total_score

/-- The comparator's order relation: `a` may come before `b` exactly when
`sortKey b ≤ sortKey a` (descending). -/
def scoreGE (a b : Stock) : Prop := sortKey b ≤ sortKey a

instance : DecidableRel scoreGE := fun a b =>
  inferInstanceAs (Decidable (sortKey b ≤ sortKey a))

instance : IsTotal Stock scoreGE :=
  ⟨fun a b => (le_total (sortKey b) (sortKey a)).elim Or.inl Or.inr⟩

instance : IsTrans Stock scoreGE :=
  ⟨fun _ _ _ hab hbc => le_trans hbc hab⟩

/-- Embeds `stocksArray.sort((a, b) => (b.total_score || 0) - (a.total_score || 0))`:
sorting into non-increasing `total_score || 0` order.  (The embedding uses
insertion sort; the claim constrains only the multiset and the adjacent
ordering of the result, which any correct sort under this comparator
satisfies.) -/
def sortStocks (l : List Stock) : List Stock := l.insertionSort scoreGE

/-- The body the backend may return for `GET /stocks`: an array of stock
records, or any non-array JSON value (error object, null, ...). -/
inductive StocksResponse where
  | arr : List Stock → StocksResponse
  | notArr : StocksResponse

/-- Embeds `const stocksArray = Array.isArray(data) ? data : [];`
(StockList.tsx line 260). -/
def coerceArray : StocksResponse → List Stock
  | StocksResponse.arr l => l
  | StocksResponse.notArr => []

/-- The component state touched by `StockList.fetchStocks`. -/
structure ListState where
  stocks : List Stock
  error : Option String
  loading : Bool
  deriving Repr

/-- Embeds `StockList.fetchStocks` (StockList.tsx lines 254-274): set `loading`,
await `getAllStocks` (which either yields a response body or throws), coerce
a non-array body to `[]`, sort, install; on a throw set the error message;
in either case the `finally` clause clears `loading`. -/
def fetchStocksRun (resp : Except Unit StocksResponse) (s0 : ListState) : ListState :=
  let s1 : ListState := { s0 with loading := true }
  match resp with
  | Except.ok d =>
      { s1 with stocks := sortStocks (coerceArray d), loading := false }
  | Except.error _ =>
      { s1 with error := some "Failed to fetch stocks", loading := false }

/-- Embeds `StockList.handleRemoveStock` (lines 281-292): on a successful
`removeStock` call, `setStocks(stocks.filter(stock => stock.symbol !== symbol))`;
on a thrown error the stock list is left untouched (only the error message is
set). -/
def handleRemoveStock (outcome : Except Unit Unit) (stocks : List Stock)
    (symbol : String) : List Stock :=
  match outcome with
  | Except.ok _ => stocks.filter fun st => st.symbol ≠ symbol
  | Except.error _ => stocks

/-! ## Scoring Engine (backend; modelled from the spec §4.3)

The Flask backend implementing the Scoring Engine is not among the shipped
sources; the definitions below are modelled from the spec. -/

/-- Modelled from the spec: the bundle of per-symbol market metrics returned
by the Market Data Client (§4.1); any individual field may be absent. -/
structure MarketMetrics where
  current_price : Option ℚ
  pe_ratio : Option ℚ
  roe : Option ℚ
  rsi : Option ℚ
  macd : Option ℚ
  volatility : Option ℚ
  beta : Option ℚ
  sentiment_score : Option ℚ
  deriving DecidableEq, Repr

/-- Modelled from the spec: the five analyst rating counts (§4.2), all
defaulting to 0 when the symbol is absent from the dataset. -/
structure RatingCounts where
  strong_buy : ℕ
  buy : ℕ
  hold : ℕ
  sell : ℕ
  strong_sell : ℕ
  deriving DecidableEq, Repr

/-- A `MarketMetrics` with every field absent ("never analyzed"). -/
def emptyMetrics : MarketMetrics :=
  ⟨none, none, none, none, none, none, none, none⟩

/-- All-zero rating counts (the dataset's default for an unknown symbol). -/
def zeroRatings : RatingCounts := ⟨0, 0, 0, 0, 0⟩

/-- Modelled from the spec: named, overridable weight constants of the
composite score (§4.3 and §9 require named constants; the exact values are a
tunable policy default). -/
def wPE : ℚ := 25
def wROE : ℚ := 20
def wRatings : ℚ := 15
def wRSI : ℚ := 10
def wMACD : ℚ := 5
def wVol : ℚ := 10
def wBeta : ℚ := 10
def wSent : ℚ := 5

/-- Modelled from the spec: PE sub-score — lower is better, decreasing above
a target band, penalized (0) for non-positive PE. -/
def peSubscore (pe : ℚ) : ℚ :=
  if pe ≤ 0 then 0 else if pe ≤ 15 then 100 else max 0 (100 - (pe - 15) * 2)

/-- Modelled from the spec: ROE sub-score — higher is better, monotone,
capped at 100 to avoid outlier distortion. -/
def roeSubscore (roe : ℚ) : ℚ := min 100 (max 0 (roe * 5))

/-- Modelled from the spec: RSI sub-score (a smaller technical term). -/
def rsiSubscore (rsi : ℚ) : ℚ := max 0 (100 - |rsi - 50| * 2)

/-- Modelled from the spec: MACD sub-score. -/
def macdSubscore (macd : ℚ) : ℚ := if 0 ≤ macd then 75 else 25

/-- Modelled from the spec: volatility penalizes deviation from a stable
profile — lower volatility scores higher. -/
def volSubscore (vol : ℚ) : ℚ := max 0 (100 - vol * 100)

/-- Modelled from the spec: beta penalizes deviation from 1. -/
def betaSubscore (beta : ℚ) : ℚ := max 0 (100 - |beta - 1| * 50)

/-- Modelled from the spec: sentiment maps [-1, 1] to [0, 100]. -/
def sentSubscore (s : ℚ) : ℚ := min 100 (max 0 ((s + 1) * 50))

/-- Modelled from the spec: analyst-ratings sub-score — net bullishness
`(2·strong_buy + buy − sell − 2·strong_sell) / total`, rescaled to [0, 100]. -/
def ratingsSubscore (r : RatingCounts) : ℚ :=
  let total : ℚ := r.strong_buy + r.buy + r.hold + r.sell + r.strong_sell
  let net : ℚ := 2 * r.strong_buy + r.buy - r.sell - 2 * r.strong_sell
  (net / (2 * total) + 1 / 2) * 100

/-- A present metric contributes one `(weight, sub-score)` pair; an absent
metric contributes nothing at all (spec §4.3: excluded, not counted as 0). -/
def optContrib (w : ℚ) (f : ℚ → ℚ) : Option ℚ → List (ℚ × ℚ)
  | none => []
  | some v => [(w, f v)]

/-- Modelled from the spec: the analyst-ratings term participates only when
the symbol has at least one rating (§8: a symbol with no dataset row is
scored from market metrics alone). -/
def ratingsContrib (r : RatingCounts) : List (ℚ × ℚ) :=
  if (r.strong_buy + r.buy + r.hold + r.sell + r.strong_sell : ℚ) = 0 then []
  else [(wRatings, ratingsSubscore r)]

/-- Modelled from the spec: the list of `(weight, sub-score)` contributions
of the present metrics (current price does not feed the score; §4.3 lists
PE, ROE, analyst ratings and the technical indicators). -/
def contributions (m : MarketMetrics) (r : RatingCounts) : List (ℚ × ℚ) :=
  optContrib wPE peSubscore m.pe_ratio ++
  optContrib wROE roeSubscore m.roe ++
  ratingsContrib r ++
  optContrib wRSI rsiSubscore m.rsi ++
  optContrib wMACD macdSubscore m.macd ++
  optContrib wVol volSubscore m.volatility ++
  optContrib wBeta betaSubscore m.beta ++
  optContrib wSent sentSubscore m.sentiment_score

/-- Weighted-average numerator: `Σ wᵢ·sᵢ` over the contribution list. -/
def scoreNum (l : List (ℚ × ℚ)) : ℚ := (l.map fun p => p.1 * p.2).sum

/-- Weighted-average denominator: `Σ wᵢ` over the contribution list. -/
def scoreDen (l : List (ℚ × ℚ)) : ℚ := (l.map Prod.fst).sum

/-- Modelled from the spec: the composite score — the weighted average of the
present metrics' sub-scores, 0 when no metric is present (§4.3, §8). -/
def score (m : MarketMetrics) (r : RatingCounts) : ℚ :=
  let l := contributions m r
  if scoreDen l = 0 then 0 else scoreNum l / scoreDen l

/-! ## Portfolio Store (backend; modelled from the spec §4.4) -/

/-- Modelled from the spec: the persisted per-symbol record (§3), i.e. the
stored metric fields, analyst rating counts, composite score (null until the
first successful pass) and `last_analyzed_at` timestamp. -/
structure StockRecord where
  symbol : String
  metrics : MarketMetrics
  ratings : RatingCounts
  total_score : Option ℚ
  last_analyzed_at : Option ℕ
  deriving DecidableEq, Repr

/-- Modelled from the spec: the store-level error taxonomy (§7) relevant to
`add` and `remove`. -/
inductive StoreError where
  | DuplicateSymbol : StoreError
  | NotFound : StoreError
  deriving DecidableEq, Repr

/-- The Portfolio Store's state: the sequence of tracked records. -/
abbrev Store := List StockRecord

/-- Modelled from the spec: the placeholder record created on add-stock
(§3 lifecycle: "created on add-stock request with empty metrics"). -/
def emptyRecord (sym : String) : StockRecord :=
  ⟨sym, emptyMetrics, zeroRatings, none, none⟩

/-- Modelled from the spec: `add(symbol)` fails with `DuplicateSymbol` when
the symbol is already tracked (not silently ignored), otherwise appends a
placeholder record (§4.4). -/
def addStock (st : Store) (sym : String) : Except StoreError Store :=
  if st.any fun r => r.symbol == sym then Except.error StoreError.DuplicateSymbol
  else Except.ok (st ++ [emptyRecord sym])

/-- Modelled from the spec: `remove(symbol)` fails with `NotFound` when the
symbol is untracked, otherwise deletes that symbol's record (§4.4). -/
def removeStock (st : Store) (sym : String) : Except StoreError Store :=
  if st.any fun r => r.symbol == sym then
    Except.ok (st.filter fun r => !(r.symbol == sym))
  else Except.error StoreError.NotFound

/-- Modelled from the spec: `upsert(record)` replaces the record of the same
symbol when present, otherwise appends (§4.4). -/
def upsert (st : Store) (rec : StockRecord) : Store :=
  if st.any fun r => r.symbol == rec.symbol then
    st.map fun r => if r.symbol == rec.symbol then rec else r
  else st ++ [rec]

/-! ## Reanalysis Orchestrator (backend; modelled from the spec §4.5) -/

/-- Modelled from the spec: the terminal outcomes of one symbol's fetch after
the Market Data Client's internal retry policy — `SymbolNotFound` is terminal,
a `TransientFetchError` is surfaced only once retries are exhausted (§4.1). -/
inductive FetchError where
  | SymbolNotFound : FetchError
  | RetriesExhausted : FetchError
  deriving DecidableEq, Repr

/-- The failure reason recorded in the batch result for a fetch error. -/
def reasonOf : FetchError → String
  | FetchError.SymbolNotFound => "SymbolNotFound"
  | FetchError.RetriesExhausted => "TransientFetchError: retries exhausted"

/-- Modelled from the spec: a `BatchResult` entry — per symbol, either
`Success(new total_score)` or `Failure(reason)` (§4.5). -/
inductive Outcome where
  | success : ℚ → Outcome
  | failure : String → Outcome
  deriving DecidableEq, Repr

/-- Modelled from the spec: one symbol's analysis pass — Market Data Client,
then Analyst Rating Dataset lookup, then Scoring Engine, then Portfolio Store
upsert; a fetch failure is caught and recorded, leaving the store untouched;
a symbol removed before upsert time is skipped (§4.5).  The dataset lookup
(total, defaulting to all-zero counts), the scoring and the in-memory upsert
cannot fail. -/
def analyzeOne (fetch : String → Except FetchError MarketMetrics)
    (dataset : String → RatingCounts) (now : ℕ) (st : Store) (sym : String) :
    Store × (String × Outcome) :=
  match fetch sym with
  | Except.error e => (st, (sym, Outcome.failure (reasonOf e)))
  | Except.ok m =>
      if st.any fun r => r.symbol == sym then
        let rc := dataset sym
        let ts := score m rc
        (upsert st ⟨sym, m, rc, some ts, some now⟩, (sym, Outcome.success ts))
      else (st, (sym, Outcome.failure "removed before upsert"))

/-- Modelled from the spec: the fold over a snapshot of symbols, threading the
store and accumulating one outcome per symbol (§4.5, §9: "a fold/reduce over
the symbol list producing a result record per symbol"). -/
def runBatch (fetch : String → Except FetchError MarketMetrics)
    (dataset : String → RatingCounts) (now : ℕ) :
    Store → List String → Store × List (String × Outcome)
  | st, [] => (st, [])
  | st, sym :: rest =>
      let p := analyzeOne fetch dataset now st sym
      let q := runBatch fetch dataset now p.1 rest
      (q.1, p.2 :: q.2)

/-- Modelled from the spec: `reanalyze_all()` — iterate a snapshot of the
Portfolio Store's current symbol list once, returning the updated store and
the `BatchResult` (§4.5). -/
def reanalyze_all (fetch : String → Except FetchError MarketMetrics)
    (dataset : String → RatingCounts) (now : ℕ) (st : Store) :
    Store × List (String × Outcome) :=
  runBatch fetch dataset now st (st.map fun r => r.symbol)

/-! ## AddStockForm (src/frontend: AddStockForm.handleSubmit) -/

/-- What one submission of the add-stock form does: nothing (suppressed), or
a call to `stockService.addStock` with the given symbol string. -/
inductive SubmitAction where
  | suppressed : SubmitAction
  | submit : String → SubmitAction
  deriving DecidableEq, Repr

/-- Embeds JavaScript `s.toUpperCase()` on the symbol string: each character
upper-cased (written over the string's character list, which is extensionally
`String.map Char.toUpper`). -/
def toUpperStr (s : String) : String := ⟨s.data.map Char.toUpper⟩

/-- Embeds `AddStockForm.handleSubmit`: `if (!symbol) return;` (a string is
falsy exactly when it is empty) and otherwise
`stockService.addStock(symbol.toUpperCase())`. -/
def handleSubmit (symbol : String) : SubmitAction :=
  if symbol = "" then SubmitAction.suppressed
  else SubmitAction.submit (toUpperStr symbol)

/-- A string is alphanumeric when every character is a letter or a digit
(the spec's validation contract for ticker symbols, §4.1). -/
def isAlnumStr (s : String) : Bool := s.data.all fun c => c.isAlpha || c.isDigit

/-! ## AnalyzeStocksButton (src/frontend: AnalyzeStocksButton.tsx) -/

/-- Observable events of `AnalyzeStocksButton.handleAnalyze`: a `setLoading`
state update, the `stockService.analyzeStocks()` call, and the
`onAnalysisComplete()` callback. -/
inductive Ev where
  | setLoading : Bool → Ev
  | callAnalyze : Ev
  | callback : Ev
  deriving DecidableEq, Repr

/-- Embeds `handleAnalyze` (AnalyzeStocksButton.tsx lines 13-23) as its event
trace, parametrized by whether the awaited `analyzeStocks()` call resolves or
rejects: `setLoading(true)`; the call; on resolution `onAnalysisComplete()`;
on rejection the catch block only logs; the `finally` clause runs
`setLoading(false)` on both paths, and a rejection is never re-thrown. -/
def handleAnalyze (outcome : Except Unit Unit) : List Ev :=
  [Ev.setLoading true, Ev.callAnalyze] ++
    (match outcome with
      | Except.ok _ => [Ev.callback]
      | Except.error _ => []) ++
  [Ev.setLoading false]

/-- Embeds the JSX `disabled={loading}` prop of the button. -/
def analyzeButtonDisabled (loading : Bool) : Bool := loading

/-- A click on the button: a disabled button fires no handler (platform
semantics of `disabled`), an enabled one runs `handleAnalyze`. -/
def clickAnalyzeButton (loading : Bool) (outcome : Except Unit Unit) : List Ev :=
  if analyzeButtonDisabled loading then [] else handleAnalyze outcome

/-- The value of the `loading` flag after replaying a list of events on top
of an initial value. -/
def loadingAfter (init : Bool) : List Ev → Bool
  | [] => init
  | Ev.setLoading b :: t => loadingAfter b t
  | Ev.callAnalyze :: t => loadingAfter init t
  | Ev.callback :: t => loadingAfter init t

/-! ## Claim theorems -/

/-- A concrete record whose `total_score` is present and exactly 0. -/
def stockScoreZero : Stock :=
  { symbol := "AAA", current_price := some 10, pe_ratio := some 12,
    roe := some 15, total_score := some 0, analyst_ratings_buy := 1,
    analyst_ratings_hold := 1, analyst_ratings_sell := 0,
    analyst_ratings_strong_buy := 1, analyst_ratings_strong_sell := 0,
    rsi := some 50, macd := some 1, volatility := some (1/10),
    sentiment_score := some (1/2), beta := some 1 }

/-- The same record with `total_score` absent (never analyzed). -/
def stockScoreAbsent : Stock := { stockScoreZero with total_score := none }

/-- C1: the code violates the claim.  `StockList` renders a present
`total_score` of exactly 0 as "N/A", identically to an absent score, and
gives both the same sort key 0 — the truthiness guards (`x ? … : …`, `x || 0`)
conflate the number 0 with absence, while a nonzero score is rendered as its
value.  Evaluation of the embedded code at the failing input. -/
theorem c1_zero_absent_conflated :
    stockScoreZero.total_score = some 0 ∧
    stockScoreAbsent.total_score = none ∧
    scoreCell stockScoreZero = CellView.na ∧
    scoreCell stockScoreZero = scoreCell stockScoreAbsent ∧
    sortKey stockScoreZero = 0 ∧
    sortKey stockScoreZero = sortKey stockScoreAbsent ∧
    scoreCell { stockScoreZero with total_score := some 1 } = CellView.val 1 := by
  decide

/-- C7 counterexample: the add-stock form performs no alphanumeric
validation.  On the non-empty input "$" the submission is not suppressed and
`stockService.addStock` is invoked with the non-alphanumeric symbol "$". -/
theorem c7_nonalnum_submitted :
    handleSubmit "$" = SubmitAction.submit "$" ∧ isAlnumStr "$" = false := by
  decide

/-- C7 (amended): the submission is suppressed exactly when the input is
empty; otherwise the submitted symbol is exactly the upper-casing of the
input (no alphanumeric check is performed); a successful add stores a record
whose unique key is exactly the submitted upper-cased symbol. -/
theorem c7_submit_uppercase (s : String) :
    (handleSubmit s = SubmitAction.suppressed ↔ s = "") ∧
    (s ≠ "" → handleSubmit s = SubmitAction.submit (toUpperStr s)) ∧
    (∀ st st', addStock st (toUpperStr s) = Except.ok st' →
      st' = st ++ [emptyRecord (toUpperStr s)]) ∧
    (emptyRecord (toUpperStr s)).symbol = toUpperStr s := by
  refine ⟨?_, ?_, ?_, rfl⟩
  · unfold handleSubmit
    by_cases h : s = ""
    · simp [h]
    · rw [if_neg h]
      exact ⟨fun hc => SubmitAction.noConfusion hc, fun hc => absurd hc h⟩
  · intro hne
    unfold handleSubmit
    rw [if_neg hne]
  · intro st st' hok
    unfold addStock at hok
    by_cases h : st.any fun r => r.symbol == toUpperStr s
    · rw [if_pos h] at hok; cases hok
    · rw [if_neg h] at hok
      exact ((Except.ok.injEq _ _).mp hok).symm

/-- C7 witness: the amended submit theorem applied at the concrete input
"ab" and the empty store. -/
theorem c7_submit_uppercase_witness :
    handleSubmit "ab" = SubmitAction.submit (toUpperStr "ab") ∧
    (emptyRecord (toUpperStr "ab")).symbol = toUpperStr "ab" :=
  ⟨(c7_submit_uppercase "ab").2.1 (by decide), (c7_submit_uppercase "ab").2.2.2⟩

/-- C8: for every array of records returned by `getAllStocks`, the installed
display list is a permutation of it, and it is sorted by non-increasing
`total_score || 0` (a falsy `total_score` — null, undefined or 0 — sorts with
key 0): every pair of records in display order a, b satisfies
`(a.total_score || 0) ≥ (b.total_score || 0)`. -/
theorem c8_installed_sorted (s0 : ListState) (l : List Stock) :
    (fetchStocksRun (Except.ok (StocksResponse.arr l)) s0).stocks.Perm l ∧
    List.Pairwise (fun a b => jsOr0 b.total_score ≤ jsOr0 a.total_score)
      (fetchStocksRun (Except.ok (StocksResponse.arr l)) s0).stocks := by
  constructor
  · simpa [fetchStocksRun, sortStocks, coerceArray] using
      List.perm_insertionSort scoreGE l
  · have h := List.sorted_insertionSort scoreGE l
    simpa [fetchStocksRun, sortStocks, coerceArray, List.Sorted, scoreGE,
      sortKey] using h

/-- C9: when the `/stocks` response body is not an array, the loader installs
the empty list, and on every path — success or thrown error — the loading
flag ends up false.  (The loader is a total function of the response: no
response value makes it throw.) -/
theorem c9_nonarray_safe (s0 : ListState) :
    (fetchStocksRun (Except.ok StocksResponse.notArr) s0).stocks = [] ∧
    ∀ resp, (fetchStocksRun resp s0).loading = false := by
  refine ⟨rfl, fun resp => ?_⟩
  cases resp <;> rfl

/-- C10: in every run of the Analyze-button handler, the loading flag is true
at the moment of the `analyzeStocks` call (it is set before the call and not
cleared before it), is false after the whole trace whether the call resolves
or rejects; the button's `disabled` prop equals `loading`, and a click while
loading fires nothing, so no second `analyzeStocks` call can start from the
button before the first settles; and `onAnalysisComplete` runs exactly once
when the call resolves and never when it rejects (the rejection is caught,
the handler still terminates normally). -/
theorem c10_analyze_button (o : Except Unit Unit) :
    loadingAfter false ((handleAnalyze o).takeWhile fun e => e != Ev.callAnalyze) = true ∧
    Ev.callAnalyze ∈ handleAnalyze o ∧
    loadingAfter false (handleAnalyze o) = false ∧
    analyzeButtonDisabled true = true ∧
    clickAnalyzeButton true o = [] ∧
    (handleAnalyze o).count Ev.callback = (if o.isOk then 1 else 0) ∧
    clickAnalyzeButton false o = handleAnalyze o := by
  cases o with
  | ok v => cases v; decide
  | error v => cases v; decide


/-- C2: the composite score is a pure, deterministic, total function into ℚ
(so every result is a finite rational, and no metric subset — including the
empty one — can make it throw); an absent metric contributes nothing to the
weighted average, while making it present adds exactly its weight to the
denominator and exactly its weighted sub-score to the numerator; analyst
ratings with a zero total count are likewise excluded rather than counted as
zero. -/
theorem c2_score_spec :
    (∀ m₁ m₂ : MarketMetrics, ∀ r₁ r₂ : RatingCounts,
      m₁ = m₂ → r₁ = r₂ → score m₁ r₁ = score m₂ r₂) ∧
    score emptyMetrics zeroRatings = 0 ∧
    ratingsContrib zeroRatings = [] ∧
    (∀ (m : MarketMetrics) (r : RatingCounts) (v : ℚ),
      scoreDen (contributions { m with pe_ratio := some v } r) =
        wPE + scoreDen (contributions { m with pe_ratio := none } r) ∧
      scoreNum (contributions { m with pe_ratio := some v } r) =
        wPE * peSubscore v + scoreNum (contributions { m with pe_ratio := none } r)) ∧
    (∀ (m : MarketMetrics) (r : RatingCounts) (v : ℚ),
      scoreDen (contributions { m with roe := some v } r) =
        wROE + scoreDen (contributions { m with roe := none } r) ∧
      scoreNum (contributions { m with roe := some v } r) =
        wROE * roeSubscore v + scoreNum (contributions { m with roe := none } r)) ∧
    (∀ (m : MarketMetrics) (r : RatingCounts) (v : ℚ),
      scoreDen (contributions { m with rsi := some v } r) =
        wRSI + scoreDen (contributions { m with rsi := none } r) ∧
      scoreNum (contributions { m with rsi := some v } r) =
        wRSI * rsiSubscore v + scoreNum (contributions { m with rsi := none } r)) ∧
    (∀ (m : MarketMetrics) (r : RatingCounts) (v : ℚ),
      scoreDen (contributions { m with macd := some v } r) =
        wMACD + scoreDen (contributions { m with macd := none } r) ∧
      scoreNum (contributions { m with macd := some v } r) =
        wMACD * macdSubscore v + scoreNum (contributions { m with macd := none } r)) ∧
    (∀ (m : MarketMetrics) (r : RatingCounts) (v : ℚ),
      scoreDen (contributions { m with volatility := some v } r) =
        wVol + scoreDen (contributions { m with volatility := none } r) ∧
      scoreNum (contributions { m with volatility := some v } r) =
        wVol * volSubscore v + scoreNum (contributions { m with volatility := none } r)) ∧
    (∀ (m : MarketMetrics) (r : RatingCounts) (v : ℚ),
      scoreDen (contributions { m with beta := some v } r) =
        wBeta + scoreDen (contributions { m with beta := none } r) ∧
      scoreNum (contributions { m with beta := some v } r) =
        wBeta * betaSubscore v + scoreNum (contributions { m with beta := none } r)) ∧
    (∀ (m : MarketMetrics) (r : RatingCounts) (v : ℚ),
      scoreDen (contributions { m with sentiment_score := some v } r) =
        wSent + scoreDen (contributions { m with sentiment_score := none } r) ∧
      scoreNum (contributions { m with sentiment_score := some v } r) =
        wSent * sentSubscore v + scoreNum (contributions { m with sentiment_score := none } r)) := by
  refine ⟨fun m₁ m₂ r₁ r₂ hm hr => by rw [hm, hr],
    by norm_num [score, contributions, optContrib, ratingsContrib, scoreDen,
      scoreNum, zeroRatings, emptyMetrics],
    by norm_num [ratingsContrib, zeroRatings],
    ?_, ?_, ?_, ?_, ?_, ?_, ?_⟩ <;>
  · intro m r v
    constructor <;>
    · simp only [contributions, optContrib, scoreDen, scoreNum,
        List.map_append, List.sum_append, List.map_cons, List.map_nil,
        List.sum_cons, List.sum_nil]
      ring

/-- C2 witness: the score theorem applied at concrete inputs — determinism at
the empty metric set, the empty-set score, and the pe-ratio decomposition at
`pe_ratio = 10`. -/
theorem c2_score_spec_witness :
    score emptyMetrics zeroRatings = score emptyMetrics zeroRatings ∧
    score emptyMetrics zeroRatings = 0 ∧
    scoreDen (contributions { emptyMetrics with pe_ratio := some 10 } zeroRatings) =
      wPE + scoreDen (contributions { emptyMetrics with pe_ratio := none } zeroRatings) :=
  ⟨c2_score_spec.1 emptyMetrics emptyMetrics zeroRatings zeroRatings rfl rfl,
   c2_score_spec.2.1,
   (c2_score_spec.2.2.2.1 emptyMetrics zeroRatings 10).1⟩

/-- C3: adding an already-tracked symbol fails with `DuplicateSymbol` (it is
not silently ignored, and no successor store is produced, so the caller's
store keeps its size and contents); a successful add preserves symbol
uniqueness, so the store never holds two entries for the same symbol. -/
theorem c3_add_duplicate (st : Store) (s : String) :
    ((∃ r ∈ st, r.symbol = s) →
      addStock st s = Except.error StoreError.DuplicateSymbol) ∧
    (∀ st', addStock st s = Except.ok st' →
      ((st.map fun r => r.symbol).Nodup → (st'.map fun r => r.symbol).Nodup) ∧
      st'.length = st.length + 1) := by
  constructor
  · intro h
    unfold addStock
    rw [if_pos]
    simpa [List.any_eq_true, beq_iff_eq] using h
  · intro st' hok
    unfold addStock at hok
    by_cases h : st.any fun r => r.symbol == s
    · rw [if_pos h] at hok; cases hok
    · rw [if_neg h] at hok
      have hst : st' = st ++ [emptyRecord s] := ((Except.ok.injEq _ _).mp hok).symm
      subst hst
      refine ⟨fun hnd => ?_, by simp⟩
      have hnotin : ∀ r ∈ st, r.symbol ≠ s := by
        simpa [List.any_eq_true, beq_iff_eq] using h
      rw [List.map_append]
      refine List.Nodup.append hnd (by simp) ?_
      intro a ha hb
      simp only [List.map_cons, List.map_nil, List.mem_singleton] at hb
      rcases List.mem_map.mp ha with ⟨r, hr, hrs⟩
      exact hnotin r hr (by rw [hrs, hb, emptyRecord])

/-- C3 witness: the duplicate-add theorem applied at the concrete store
holding "IBM" — the duplicate add fails, and the successful add of "TSLA" to
the same store keeps symbols unique. -/
theorem c3_add_duplicate_witness :
    addStock [emptyRecord "IBM"] "IBM" = Except.error StoreError.DuplicateSymbol ∧
    ([emptyRecord "IBM", emptyRecord "TSLA"].map fun r => r.symbol).Nodup :=
  ⟨(c3_add_duplicate [emptyRecord "IBM"] "IBM").1
      ⟨emptyRecord "IBM", List.mem_singleton.mpr rfl, rfl⟩,
   (((c3_add_duplicate [emptyRecord "IBM"] "TSLA").2
      [emptyRecord "IBM", emptyRecord "TSLA"] rfl).1 (by decide))⟩

/-- C4: removing an untracked symbol fails with `NotFound` (no successor
store is produced, so the tracked set — size and records — is unchanged for
the caller); a successful remove deletes exactly the records carrying that
symbol, keeping every other record unchanged and in order; the frontend
`handleRemoveStock` mirrors this — a thrown error leaves the displayed list
untouched, success removes exactly the rows with that symbol. -/
theorem c4_remove_frame (st : Store) (s : String) :
    ((¬ ∃ r ∈ st, r.symbol = s) →
      removeStock st s = Except.error StoreError.NotFound) ∧
    (∀ st', removeStock st s = Except.ok st' →
      st' = st.filter (fun r => !(r.symbol == s)) ∧
      (∀ r ∈ st, r.symbol ≠ s → r ∈ st') ∧
      (∀ r ∈ st', r ∈ st ∧ r.symbol ≠ s)) ∧
    (∀ (stocks : List Stock) (sym : String),
      handleRemoveStock (Except.error ()) stocks sym = stocks) ∧
    (∀ (stocks : List Stock) (sym : String) (x : Stock),
      x ∈ handleRemoveStock (Except.ok ()) stocks sym ↔ x ∈ stocks ∧ x.symbol ≠ sym) := by
  refine ⟨?_, ?_, fun stocks sym => rfl, ?_⟩
  · intro h
    unfold removeStock
    rw [if_neg]
    simpa [List.any_eq_true, beq_iff_eq] using h
  · intro st' hok
    unfold removeStock at hok
    by_cases h : st.any fun r => r.symbol == s
    · rw [if_pos h] at hok
      have hst : st' = st.filter fun r => !(r.symbol == s) :=
        ((Except.ok.injEq _ _).mp hok).symm
      subst hst
      refine ⟨rfl, ?_, ?_⟩
      · intro r hr hne
        exact List.mem_filter.mpr ⟨hr, by simpa using hne⟩
      · intro r hr
        have := List.mem_filter.mp hr
        exact ⟨this.1, by simpa using this.2⟩
    · rw [if_neg h] at hok; cases hok
  · intro stocks sym x
    unfold handleRemoveStock
    constructor
    · intro hx
      have := List.mem_filter.mp hx
      exact ⟨this.1, by simpa using this.2⟩
    · intro hx
      exact List.mem_filter.mpr ⟨hx.1, by simpa using hx.2⟩

/-- C4 witness: the remove theorem applied at a concrete two-symbol store —
removing untracked "FOO" fails with `NotFound`, and after a successful remove
of "IBM" the record of "TSLA" is still present. -/
theorem c4_remove_frame_witness :
    removeStock [emptyRecord "IBM"] "FOO" = Except.error StoreError.NotFound ∧
    emptyRecord "TSLA" ∈
      ([emptyRecord "IBM", emptyRecord "TSLA"].filter fun r => !(r.symbol == "IBM")) :=
  ⟨(c4_remove_frame [emptyRecord "IBM"] "FOO").1
      (by rintro ⟨r, hr, hs⟩; rw [List.mem_singleton] at hr; rw [hr] at hs; exact absurd hs (by decide)),
   (((c4_remove_frame [emptyRecord "IBM", emptyRecord "TSLA"] "IBM").2.1 _ rfl).2.1
      (emptyRecord "TSLA") (by decide) (by decide))⟩

/-- Helper: the outcome produced by one pass is always tagged with the very
symbol that was processed, on every branch. -/
theorem analyzeOne_fst (fetch : String → Except FetchError MarketMetrics)
    (dataset : String → RatingCounts) (now : ℕ) (st : Store) (sym : String) :
    ((analyzeOne fetch dataset now st sym).2).1 = sym := by
  unfold analyzeOne
  cases fetch sym with
  | error e => rfl
  | ok m =>
      dsimp only
      split <;> rfl

/-- Helper: the batch fold emits exactly one outcome per snapshot symbol, in
snapshot order, whatever the per-symbol results are. -/
theorem runBatch_symbols (fetch : String → Except FetchError MarketMetrics)
    (dataset : String → RatingCounts) (now : ℕ) :
    ∀ (syms : List String) (st : Store),
      ((runBatch fetch dataset now st syms).2).map Prod.fst = syms
  | [], _ => rfl
  | sym :: rest, st => by
      simp only [runBatch, List.map_cons]
      rw [analyzeOne_fst, runBatch_symbols fetch dataset now rest]

/-- C5: `reanalyze_all` always returns a `BatchResult` carrying exactly one
outcome per snapshot symbol, in snapshot order, for every possible fetch
behaviour — in particular a failing fetch for any subset of the symbols
cannot abort the batch or drop an entry (each entry is, by the `Outcome`
type, either `success score` or `failure reason`). -/
theorem c5_batch_complete (fetch : String → Except FetchError MarketMetrics)
    (dataset : String → RatingCounts) (now : ℕ) (st : Store) :
    ((reanalyze_all fetch dataset now st).2).map Prod.fst =
      st.map (fun r => r.symbol) ∧
    ((reanalyze_all fetch dataset now st).2).length = st.length := by
  have h := runBatch_symbols fetch dataset now (st.map fun r => r.symbol) st
  refine ⟨h, ?_⟩
  have := congrArg List.length h
  simpa using this

/-- Helper: replacing or appending a record for a different symbol leaves the
lookup of `sym` untouched, over any store. -/
theorem find?_map_replace (rec : StockRecord) (sym : String) (h : rec.symbol ≠ sym) :
    ∀ st : Store,
      ((st.map fun r => if r.symbol == rec.symbol then rec else r).find?
          fun r => r.symbol == sym) =
        st.find? fun r => r.symbol == sym
  | [] => rfl
  | a :: t => by
      by_cases ha : a.symbol = rec.symbol
      · have h1 : (a.symbol == sym) = false := by
          simp only [beq_eq_false_iff_ne, ne_eq, ha]
          exact h
        have h2 : (rec.symbol == sym) = false := by
          simpa only [beq_eq_false_iff_ne, ne_eq] using h
        simp only [List.map_cons, List.find?_cons, ha, beq_self_eq_true,
          if_true, h1, h2]
        exact find?_map_replace rec sym h t
      · have ha2 : (a.symbol == rec.symbol) = false := by
          simpa only [beq_eq_false_iff_ne, ne_eq] using ha
        simp only [List.map_cons, List.find?_cons, ha2, Bool.false_eq_true,
          if_false]
        cases hs : a.symbol == sym with
        | true => rfl
        | false => exact find?_map_replace rec sym h t

/-- Helper: `upsert` of a record for a different symbol does not change what
a lookup of `sym` returns. -/
theorem find?_upsert_ne (st : Store) (rec : StockRecord) (sym : String)
    (h : rec.symbol ≠ sym) :
    ((upsert st rec).find? fun r => r.symbol == sym) =
      st.find? fun r => r.symbol == sym := by
  unfold upsert
  split
  · exact find?_map_replace rec sym h st
  · have h2 : (rec.symbol == sym) = false := by
      simpa only [beq_eq_false_iff_ne, ne_eq] using h
    simp [List.find?_append, h2]

/-- Helper: a batch in which `sym`'s fetch fails never changes what a lookup
of `sym` returns, whatever other symbols it processes. -/
theorem runBatch_find?_of_failed (fetch : String → Except FetchError MarketMetrics)
    (dataset : String → RatingCounts) (now : ℕ) (sym : String) (e : FetchError)
    (h : fetch sym = Except.error e) :
    ∀ (syms : List String) (st : Store),
      (((runBatch fetch dataset now st syms).1).find? fun r => r.symbol == sym) =
        st.find? fun r => r.symbol == sym
  | [], _ => rfl
  | s :: rest, st => by
      have step : (((analyzeOne fetch dataset now st s).1).find?
            fun r => r.symbol == sym) =
          st.find? fun r => r.symbol == sym := by
        cases hf : fetch s with
        | error e2 => simp [analyzeOne, hf]
        | ok m =>
            have hs : s ≠ sym := by
              rintro rfl
              rw [h] at hf
              cases hf
            simp only [analyzeOne, hf]
            split
            · exact find?_upsert_ne st _ sym hs
            · rfl
      simp only [runBatch]
      rw [runBatch_find?_of_failed fetch dataset now sym e h rest _, step]

/-- C6: for every symbol whose analysis pass fails (its fetch returns
`SymbolNotFound` or exhausts retries), the whole previously persisted record
returned by a store lookup — metrics, rating counts, `total_score` and
`last_analyzed_at` — is identical after `reanalyze_all` to what it was
before; only other symbols' records can have been replaced. -/
theorem c6_failed_pass_frame (fetch : String → Except FetchError MarketMetrics)
    (dataset : String → RatingCounts) (now : ℕ) (st : Store) (sym : String)
    (e : FetchError) (h : fetch sym = Except.error e) :
    (((reanalyze_all fetch dataset now st).1).find? fun r => r.symbol == sym) =
      st.find? fun r => r.symbol == sym := by
  unfold reanalyze_all
  exact runBatch_find?_of_failed fetch dataset now sym e h _ st

/-- C6 witness: the frame theorem applied concretely — a store tracking only
"ZZZZ", whose fetch always reports `SymbolNotFound`: after the batch, the
lookup still returns the untouched placeholder record. -/
theorem c6_failed_pass_frame_witness :
    (((reanalyze_all (fun _ => Except.error FetchError.SymbolNotFound)
          (fun _ => zeroRatings) 7 [emptyRecord "ZZZZ"]).1).find?
        fun r => r.symbol == "ZZZZ") =
      ([emptyRecord "ZZZZ"].find? fun r => r.symbol == "ZZZZ") :=
  c6_failed_pass_frame (fun _ => Except.error FetchError.SymbolNotFound)
    (fun _ => zeroRatings) 7 [emptyRecord "ZZZZ"] "ZZZZ"
    FetchError.SymbolNotFound rfl
